import Mathlib

/-!
# Verification of the option-pricing frontend against its specification

Shallow embedding of the TypeScript frontend of the option-pricing
application (form validation, Greeks display, convergence fitting,
sensitivity sweeps, hedging requests, heatmap colouring) together with a
model of the analytic Black-Scholes pricer taken from the specification
(the Python pricing package is not among the provided sources).

Numbers produced and consumed by the frontend are IEEE doubles; here they
are embedded as exact rationals (`ℚ`), except where JavaScript non-finite
values (`NaN`, `Infinity`) are essential to the property, in which case a
small sum type `JsNum` models them explicitly.  The analytic pricer is
embedded over `ℝ` because its contract involves `exp`, `log` and the
standard normal CDF.
-/

/-! ## Data model (frontend/lib/types.ts) -/

/-- `OptionType` from `types.ts`: `"call" | "put"`. -/
inductive OptionType where
  | call
  | put
deriving DecidableEq, Repr

/-- `PricingRequest` from `types.ts`.  `binomial_steps` and
`mc_simulations` are produced by `parseInt` in the form, hence integers. -/
structure PricingRequest where
  S0 : ℚ
  K : ℚ
  r : ℚ
  sigma : ℚ
  T : ℚ
  option_type : OptionType
  binomial_steps : ℤ
  mc_simulations : ℤ
deriving DecidableEq, Repr

/-- The `comparison` sub-object of `PricingResponse`. -/
structure PricingComparison where
  binomial_diff : ℚ
  monte_carlo_diff : ℚ
  binomial_pct_diff : ℚ
  monte_carlo_pct_diff : ℚ
deriving DecidableEq, Repr

/-- `PricingResponse` from `types.ts`. -/
structure PricingResponse where
  black_scholes : ℚ
  binomial : ℚ
  monte_carlo : ℚ
  monte_carlo_stderr : ℚ
  comparison : PricingComparison
deriving DecidableEq, Repr

/-- `ConvergenceDataPoint` from `types.ts`. -/
structure ConvergenceDataPoint where
  N : ℚ
  log10_N : ℚ
  error : ℚ
  log10_error : ℚ
  price : ℚ
deriving DecidableEq, Repr

/-- `ConvergenceResponse` from `types.ts`. -/
structure ConvergenceResponse where
  binomial : List ConvergenceDataPoint
  monte_carlo : List ConvergenceDataPoint
  binomial_slope : ℚ
  monte_carlo_slope : ℚ
  black_scholes_price : ℚ
deriving DecidableEq, Repr

/-! ## GreeksDisplay (percentage difference of Greeks methods) -/

/-- The percentage-difference computation of `GreeksDisplay`:
`Math.abs(bsValue) > 1e-10 ? (Math.abs(v - bsValue) / Math.abs(bsValue)) * 100 : 0`.
The source comment reads "Calculate percentage differences (handle zero
reference)": a reference at most `1e-10` in magnitude yields `0`. -/
def pctDiff (bsValue v : ℚ) : ℚ :=
  if 1 / 10 ^ 10 < |bsValue| then |v - bsValue| / |bsValue| * 100 else 0

/-! ## ConvergenceAnalysis (least-squares fitted line rendering) -/

/-- `Math.min(...l)` on a non-empty list; JavaScript returns `Infinity` on
an empty argument list, but every use below is guarded by a non-emptiness
check, so the empty case is given an arbitrary value. -/
def jsMinList (l : List ℚ) : ℚ :=
  match l with
  | [] => 0
  | h :: t => t.foldl min h

/-- `Math.max(...l)` on a non-empty list (see `jsMinList`). -/
def jsMaxList (l : List ℚ) : ℚ :=
  match l with
  | [] => 0
  | h :: t => t.foldl max h

/-- Mean of a list, `l.reduce((a, b) => a + b, 0) / l.length`. -/
def listMean (l : List ℚ) : ℚ :=
  l.sum / l.length

/-- The intercept computed by `binomialFitted` / `mcFitted` in
`ConvergenceAnalysis.tsx`: `intercept = meanY - slope * meanX` where the
means are over `log10_N` and `log10_error` of the points. -/
def fitIntercept (slope : ℚ) (points : List ConvergenceDataPoint) : ℚ :=
  listMean (points.map (·.log10_error)) - slope * listMean (points.map (·.log10_N))

/-- The affine function whose graph is the rendered fitted line:
`x ↦ slope * x + intercept`. -/
def fitLineAt (slope : ℚ) (points : List ConvergenceDataPoint) (x : ℚ) : ℚ :=
  slope * x + fitIntercept slope points

/-- The fitted-line point list of `ConvergenceAnalysis.tsx` (both the
`binomialFitted` and `mcFitted` IIFEs compute exactly this): with fewer
than 2 points the result is `[]`; otherwise 51 samples of the fitted line
at `xVal = minX + (maxX - minX) * (i / 50)` for `i = 0..50`. -/
def fittedPoints (slope : ℚ) (points : List ConvergenceDataPoint) : List (ℚ × ℚ) :=
  if points.length < 2 then []
  else
    let x := points.map (·.log10_N)
    let minX := jsMinList x
    let maxX := jsMaxList x
    (List.range 51).map (fun i : ℕ =>
      let xVal := minX + (maxX - minX) * ((i : ℚ) / 50)
      (xVal, fitLineAt slope points xVal))

/-- `binomialFitted` of `ConvergenceAnalysis.tsx`. -/
def binomialFitted (res : ConvergenceResponse) : List (ℚ × ℚ) :=
  fittedPoints res.binomial_slope res.binomial

/-- `mcFitted` of `ConvergenceAnalysis.tsx`. -/
def mcFitted (res : ConvergenceResponse) : List (ℚ × ℚ) :=
  fittedPoints res.monte_carlo_slope res.monte_carlo

/-! ## OptionForm (parameter form, HTML constraint validation)

The form in `OptionForm` submits through a `<form onSubmit=...>` with a
`type="submit"` button, so the browser's constraint validation applies:
an input whose value violates its `min`/`max` attributes blocks
submission and is reported as the offending field.  The attributes are
`S0: min 0.01`, `K: min 0.01`, `r: min 0 max 1`, `sigma: min 0.01`,
`T: min 0.01`, `binomial_steps: min 1 max 10000`,
`mc_simulations: min 100 max 10000000`.  Constraint validation also
includes the step-mismatch check: a value is valid only when it differs
from the step base (the `min` attribute, per WHATWG) by an integral
multiple of the `step` attribute — `step 0.01` for `S0`/`K`/`sigma`/`T`,
`step 0.001` for `r`, `step 1` for `binomial_steps`, and `step 1000` for
`mc_simulations`.  Field names are modelled as an enumeration mirroring
the `name` attributes. -/

/-- The `name` attributes of the form inputs. -/
inductive FormField where
  | S0
  | K
  | r
  | sigma
  | T
  | binomial_steps
  | mc_simulations
deriving DecidableEq, Repr

/-- The state held by `OptionForm` (`formData`). -/
structure OptionFormData where
  S0 : ℚ
  K : ℚ
  r : ℚ
  sigma : ℚ
  T : ℚ
  option_type : OptionType
  binomial_steps : ℤ
  mc_simulations : ℤ
deriving DecidableEq, Repr

/-- The HTML step-mismatch check: `value` suffers no step mismatch when
`value - base` is an integral multiple of `step` (the step base is the
input's `min` attribute).  Stated on exact rationals as: the quotient
`(value - base) / step` has denominator 1. -/
def stepAligned (base step value : ℚ) : Prop :=
  ((value - base) / step).den = 1

instance instDecidableStepAligned (base step value : ℚ) :
    Decidable (stepAligned base step value) :=
  inferInstanceAs (Decidable (((value - base) / step).den = 1))

/-- The fields whose values violate their `min`/`max`/`step` attributes;
the browser reports these and blocks submission when the list is
non-empty. -/
def invalidFields (f : OptionFormData) : List FormField :=
  (if f.S0 < 1 / 100 ∨ ¬ stepAligned (1 / 100) (1 / 100) f.S0 then [FormField.S0] else []) ++
  (if f.K < 1 / 100 ∨ ¬ stepAligned (1 / 100) (1 / 100) f.K then [FormField.K] else []) ++
  (if f.r < 0 ∨ 1 < f.r ∨ ¬ stepAligned 0 (1 / 1000) f.r then [FormField.r] else []) ++
  (if f.sigma < 1 / 100 ∨ ¬ stepAligned (1 / 100) (1 / 100) f.sigma then [FormField.sigma]
    else []) ++
  (if f.T < 1 / 100 ∨ ¬ stepAligned (1 / 100) (1 / 100) f.T then [FormField.T] else []) ++
  (if f.binomial_steps < 1 ∨ 10000 < f.binomial_steps ∨
      ¬ stepAligned 1 1 (f.binomial_steps : ℚ) then [FormField.binomial_steps] else []) ++
  (if f.mc_simulations < 100 ∨ 10000000 < f.mc_simulations ∨
      ¬ stepAligned 100 1000 (f.mc_simulations : ℚ) then [FormField.mc_simulations] else [])

/-- Submission: `handleSubmit` fires `onSubmit(formData)` only when every
input passes constraint validation; otherwise no request is produced. -/
def submitForm (f : OptionFormData) : Option PricingRequest :=
  if invalidFields f = [] then
    some ⟨f.S0, f.K, f.r, f.sigma, f.T, f.option_type, f.binomial_steps, f.mc_simulations⟩
  else none

/-! ## DeltaHedgingSimulator (hedging request construction) -/

/-- `HedgingSimulateRequest` from `types.ts` (the fields the component
fills; `num_simulations` is omitted by `DeltaHedgingSimulator`). -/
structure HedgingSimulateRequest where
  S0 : ℚ
  K : ℚ
  r : ℚ
  sigma : ℚ
  T : ℚ
  option_type : OptionType
  rebalance_freq : String
  transaction_cost : ℚ
  option_contracts : ℤ
deriving DecidableEq, Repr

/-- The six `value`s offered by the rebalancing-frequency `<select>` of
`DeltaHedgingSimulator`; the select cannot hold any other token. -/
def rebalanceFreqOptions : List String :=
  ["daily", "weekly", "biweekly", "monthly", "5", "10"]

/-- The component state of `DeltaHedgingSimulator` that feeds the request:
`rebalanceFreq` (from the select), `transactionCost` (the input shows
percent and stores `parseFloat(v) / 100`; attributes `min 0 max 10` on the
percent value are advisory only, since the run button is a plain
`onClick`, not a form submission), and `optionContracts`. -/
structure HedgingSimState where
  rebalanceFreq : String
  transactionCost : ℚ
  optionContracts : ℤ
deriving DecidableEq, Repr

/-- The `onChange` handler of the contracts input:
`setOptionContracts(parseInt(e.target.value) || 1)` — an unparseable value
(`NaN`, falsy) and a parsed `0` (falsy) both fall back to `1`. -/
def contractsFromInput (parsed : Option ℤ) : ℤ :=
  match parsed with
  | none => 1
  | some n => if n = 0 then 1 else n

/-- The request `handleSimulate` builds from the state, field by field. -/
def hedgingRequest (base : PricingRequest) (st : HedgingSimState) : HedgingSimulateRequest :=
  { S0 := base.S0
    K := base.K
    r := base.r
    sigma := base.sigma
    T := base.T
    option_type := base.option_type
    rebalance_freq := st.rebalanceFreq
    transaction_cost := st.transactionCost
    option_contracts := st.optionContracts }

/-- `handleSimulate` of `DeltaHedgingSimulator`: it performs no
validation of any kind — for every state it unconditionally issues the
request built from the state (`none` would model a client-side
rejection; no branch of the handler produces one). -/
def handleSimulate (base : PricingRequest) (st : HedgingSimState) : Option HedgingSimulateRequest :=
  some (hedgingRequest base st)

/-! ## api.ts (`calculatePricing`) and page.tsx (`handleCalculate`) -/

/-- A JavaScript thrown value as observed by the handlers: whether it is
an `Error` instance, and its `message`. -/
structure JsError where
  isError : Bool
  message : String
deriving DecidableEq, Repr

/-- The outcome of the single `apiClient.post` attempt inside
`calculatePricing`: a response, an axios error (whose
`response?.data?.detail` may be absent), or some other thrown value. -/
inductive FetchOutcome where
  | success (resp : PricingResponse)
  | axiosFailure (detail : Option String)
  | failure (err : JsError)

/-- `calculatePricing` of `api.ts`, as a function of the one attempt it
makes (the `try` body posts exactly once; there is no retry loop): an
axios error is rethrown as `new Error(detail || "Failed to calculate
pricing")`, any other thrown value is rethrown unchanged. -/
def calculatePricing (outcome : FetchOutcome) : Except JsError PricingResponse :=
  match outcome with
  | .success resp => .ok resp
  | .axiosFailure detail => .error ⟨true, detail.getD "Failed to calculate pricing"⟩
  | .failure err => .error err

/-- The page state of `page.tsx` touched by `handleCalculate`. -/
structure PageState where
  results : Option PricingResponse
  error : Option String
  isLoading : Bool
  lastRequest : Option PricingRequest
deriving DecidableEq, Repr

/-- `handleCalculate` of `page.tsx`: stores the request, calls
`calculatePricing` once, and on success stores the response; on failure it
stores the error message (`err.message` for `Error` instances, the fixed
`"An error occurred"` otherwise) and sets `results` to `null`. -/
def handleCalculate (st : PageState) (request : PricingRequest) (outcome : FetchOutcome) : PageState :=
  let st1 : PageState := { st with error := none, lastRequest := some request }
  match calculatePricing outcome with
  | .ok resp => { st1 with results := some resp, isLoading := false }
  | .error e =>
      { st1 with
        error := some (if e.isError then e.message else "An error occurred")
        results := none
        isLoading := false }

/-! ## GreeksSensitivity (clamped sensitivity requests) -/

/-- The varying-parameter names of `GreeksSensitivity` /
`ParameterSensitivity`. -/
inductive ParameterName where
  | S0
  | K
  | r
  | sigma
  | T
deriving DecidableEq, Repr

/-- One entry of the `paramConfig` record. -/
structure ParamConfig where
  label : String
  step : ℚ
  min : ℚ
  max : ℚ
deriving DecidableEq, Repr

/-- The `paramConfig` table shared by `GreeksSensitivity` and
`ParameterSensitivity`. -/
def paramConfig : ParameterName → ParamConfig
  | .S0 => ⟨"Stock Price (S₀)", 5, 10, 500⟩
  | .K => ⟨"Strike Price (K)", 5, 10, 500⟩
  | .r => ⟨"Risk-Free Rate (r)", 1 / 100, 0, 1 / 2⟩
  | .sigma => ⟨"Volatility (σ)", 1 / 20, 1 / 20, 1⟩
  | .T => ⟨"Time to Maturity (T)", 1 / 10, 1 / 10, 5⟩

/-- `GreeksSensitivityRequest` from `types.ts`. -/
structure GreeksSensitivityRequest where
  S0 : ℚ
  K : ℚ
  r : ℚ
  sigma : ℚ
  T : ℚ
  option_type : OptionType
  parameter : ParameterName
  min_value : ℚ
  max_value : ℚ
  steps : ℤ
deriving DecidableEq, Repr

/-- The request built by `GreeksSensitivity.generateSensitivityData`:
`min_value = Math.max(config.min, range[0])`,
`max_value = Math.min(config.max, range[1])`, `steps: 30`. -/
def greeksSensitivityRequest (selectedParam : ParameterName) (range : ℚ × ℚ)
    (base : PricingRequest) : GreeksSensitivityRequest :=
  let config := paramConfig selectedParam
  { S0 := base.S0
    K := base.K
    r := base.r
    sigma := base.sigma
    T := base.T
    option_type := base.option_type
    parameter := selectedParam
    min_value := max config.min range.1
    max_value := min config.max range.2
    steps := 30 }

/-! ## ParameterSensitivity (price sweep over a parameter range) -/

/-- The swept values of `ParameterSensitivity.generateSensitivityData`:
`steps = 10`, `stepSize = (range[1] - range[0]) / steps`,
`values = Array.from({length: steps + 1}, (_, i) => range[0] + i * stepSize)`. -/
def sweepValues (lo hi : ℚ) : List ℚ :=
  let stepSize := (hi - lo) / 10
  (List.range 11).map (fun i : ℕ => lo + (i : ℚ) * stepSize)

/-- `Number(value.toFixed(2))`: rounding to two decimal places (ties here
follow `round`, i.e. `⌊x + 1/2⌋`; `toFixed` ties differ only at exact
half-cent negatives, immaterial to the ordering properties proved). -/
def jsToFixed2 (q : ℚ) : ℚ :=
  (round (q * 100) : ℤ) / 100

/-- One element of the `results` array pushed per successful call. -/
structure SensitivityPoint where
  value : ℚ
  black_scholes : ℚ
  binomial : ℚ
  monte_carlo : ℚ
deriving DecidableEq, Repr

/-- The `results` array of `generateSensitivityData`: the swept values in
generation order; for each, one `calculatePricing` call (modelled by its
outcome `fetch v`); on success a point is pushed, on error the value is
skipped (`catch` only logs). -/
def generateSensitivityData (fetch : ℚ → Option PricingResponse) (lo hi : ℚ) :
    List SensitivityPoint :=
  (sweepValues lo hi).filterMap (fun v =>
    (fetch v).map (fun resp =>
      ⟨jsToFixed2 v, resp.black_scholes, resp.binomial, resp.monte_carlo⟩))

/-! ## GreeksHeatmap (colour normalization)

The colour computation divides by `maxValue - minValue`; to capture the
JavaScript behaviour at a zero denominator the result domain is the sum
type `JsNum` (`0/0 = NaN`, `x/0 = ±Infinity` for `x ≠ 0`), and string
interpolation renders `NaN` as `"NaN"`. -/

/-- A JavaScript number that may be non-finite. -/
inductive JsNum where
  | num (q : ℚ)
  | nan
  | inf
  | negInf
deriving DecidableEq, Repr

/-- JavaScript division of two finite doubles, keeping the IEEE rules for
a zero denominator: `0/0 = NaN`, `a/0 = ±Infinity` for `a ≠ 0`. -/
def jsDiv (a b : ℚ) : JsNum :=
  if b = 0 then
    (if a = 0 then .nan else if 0 < a then .inf else .negInf)
  else .num (a / b)

/-- `1 - n` on a possibly non-finite number (`1 - NaN = NaN`). -/
def jsOneSub : JsNum → JsNum
  | .num q => .num (1 - q)
  | .nan => .nan
  | .inf => .negInf
  | .negInf => .inf

/-- `n * 240` on a possibly non-finite number (`NaN * 240 = NaN`). -/
def jsMul240 : JsNum → JsNum
  | .num q => .num (q * 240)
  | .nan => .nan
  | .inf => .inf
  | .negInf => .negInf

/-- String interpolation of a possibly non-finite number; for finite
values only its finiteness matters below, so the exact decimal rendering
is delegated to `toString`. -/
def jsNumToString : JsNum → String
  | .num q => toString q
  | .nan => "NaN"
  | .inf => "Infinity"
  | .negInf => "-Infinity"

/-- One cell of the heatmap `data` array: `{x, y, value}`. -/
structure HeatmapPoint where
  x : ℚ
  y : ℚ
  value : ℚ
deriving DecidableEq, Repr

/-- `minValue = Math.min(...data.map(d => d.value))`. -/
def heatMinValue (data : List HeatmapPoint) : ℚ :=
  jsMinList (data.map (·.value))

/-- `maxValue = Math.max(...data.map(d => d.value))`. -/
def heatMaxValue (data : List HeatmapPoint) : ℚ :=
  jsMaxList (data.map (·.value))

/-- `getColor` of `GreeksHeatmap.tsx`:
`normalized = (value - minValue) / range`, `hue = (1 - normalized) * 240`,
result `` `hsl(${hue}, 70%, 50%)` ``. -/
def getColor (data : List HeatmapPoint) (value : ℚ) : String :=
  let range := heatMaxValue data - heatMinValue data
  let normalized := jsDiv (value - heatMinValue data) range
  let hue := jsMul240 (jsOneSub normalized)
  "hsl(" ++ jsNumToString hue ++ ", 70%, 50%)"

/-! ## Analytic (Black-Scholes) pricer

Modelled from the spec: the analytic pricer (`pricing/black_scholes.py`)
is not among the provided source files — only its TypeScript callers are —
so the definitions below follow spec section 4.1 verbatim:
`d1 = (ln(S0/K) + (r + sigma²/2)T) / (sigma·√T)`, `d2 = d1 - sigma·√T`,
call `= S0·N(d1) - K·e^(-rT)·N(d2)`, put `= K·e^(-rT)·N(-d2) - S0·N(-d1)`,
with `N` the standard normal cumulative distribution. -/

/-- `OptionParameters` of spec section 3: validated scalars with
`S0>0, K>0, sigma>0, T>0` and `r` unrestricted. -/
structure OptionParameters where
  S0 : ℝ
  K : ℝ
  r : ℝ
  sigma : ℝ
  T : ℝ

/-- Modelled from the spec: the standard normal cumulative distribution
`N(x) = (∫_{-∞}^{x} e^{-t²/2} dt) / √(2π)`. -/
noncomputable def normalCDF (x : ℝ) : ℝ :=
  (∫ t in Set.Iic x, Real.exp (-t ^ 2 / 2)) / Real.sqrt (2 * Real.pi)

/-- Modelled from the spec: `d1`. -/
noncomputable def bsD1 (p : OptionParameters) : ℝ :=
  (Real.log (p.S0 / p.K) + (p.r + p.sigma ^ 2 / 2) * p.T) / (p.sigma * Real.sqrt p.T)

/-- Modelled from the spec: `d2 = d1 - sigma·√T`. -/
noncomputable def bsD2 (p : OptionParameters) : ℝ :=
  bsD1 p - p.sigma * Real.sqrt p.T

/-- Modelled from the spec: analytic call price
`S0·N(d1) - K·e^(-rT)·N(d2)`. -/
noncomputable def bsCall (p : OptionParameters) : ℝ :=
  p.S0 * normalCDF (bsD1 p) - p.K * Real.exp (-p.r * p.T) * normalCDF (bsD2 p)

/-- Modelled from the spec: analytic put price
`K·e^(-rT)·N(-d2) - S0·N(-d1)`. -/
noncomputable def bsPut (p : OptionParameters) : ℝ :=
  p.K * Real.exp (-p.r * p.T) * normalCDF (-bsD2 p) - p.S0 * normalCDF (-bsD1 p)

/-! ## Helper lemmas -/

/-- A one-element conditional list is empty exactly when the condition
fails. -/
theorem condList_eq_nil {c : Prop} [Decidable c] {a : FormField} :
    ((if c then [a] else []) = []) ↔ ¬c := by
  split <;> simp_all

/-- Membership in a one-element conditional list. -/
theorem mem_condList {c : Prop} [Decidable c] {a b : FormField} :
    (a ∈ if c then [b] else []) ↔ (c ∧ a = b) := by
  split <;> simp_all

/-- `stepAligned` is the WHATWG step-mismatch condition: `value` is an
integral multiple of `step` away from the base. -/
theorem stepAligned_iff (base step value : ℚ) (hstep : step ≠ 0) :
    stepAligned base step value ↔ ∃ k : ℤ, value = base + k * step := by
  rw [stepAligned]
  constructor
  · intro h
    refine ⟨((value - base) / step).num, ?_⟩
    have hq := (Rat.den_eq_one_iff _).mp h
    field_simp at hq
    linarith [hq]
  · rintro ⟨k, rfl⟩
    have h : (base + (k : ℚ) * step - base) / step = (k : ℚ) := by
      field_simp
    rw [h, Rat.den_intCast]

/-- Every integer passes the `min="1" step="1"` grid of the steps input. -/
theorem stepAligned_int_one (n : ℤ) : stepAligned 1 1 (n : ℚ) :=
  (stepAligned_iff 1 1 _ one_ne_zero).mpr ⟨n - 1, by push_cast; ring⟩

/-- The form submits exactly when every input satisfies its
`min`/`max`/`step` attributes (the steps input's own step check,
`stepAligned 1 1`, holds for every integer and is dropped from the
right-hand side). -/
theorem submitForm_isSome_iff (f : OptionFormData) :
    (submitForm f).isSome = true ↔
      (1 / 100 ≤ f.S0 ∧ stepAligned (1 / 100) (1 / 100) f.S0 ∧
        1 / 100 ≤ f.K ∧ stepAligned (1 / 100) (1 / 100) f.K ∧
        0 ≤ f.r ∧ f.r ≤ 1 ∧ stepAligned 0 (1 / 1000) f.r ∧
        1 / 100 ≤ f.sigma ∧ stepAligned (1 / 100) (1 / 100) f.sigma ∧
        1 / 100 ≤ f.T ∧ stepAligned (1 / 100) (1 / 100) f.T ∧
        1 ≤ f.binomial_steps ∧ f.binomial_steps ≤ 10000 ∧
        100 ≤ f.mc_simulations ∧ f.mc_simulations ≤ 10000000 ∧
        stepAligned 100 1000 (f.mc_simulations : ℚ)) := by
  have hbs := stepAligned_int_one f.binomial_steps
  have h : (submitForm f).isSome = true ↔ invalidFields f = [] := by
    rw [submitForm]
    split <;> simp_all
  rw [h, invalidFields]
  simp only [List.append_eq_nil, condList_eq_nil, not_or, not_not, not_lt]
  tauto

/-- Every sample of the fitted-line point list lies on the fitted line. -/
theorem fittedPoints_on_line (slope : ℚ) (points : List ConvergenceDataPoint) :
    ∀ pr ∈ fittedPoints slope points, pr.2 = fitLineAt slope points pr.1 := by
  intro pr hpr
  rw [fittedPoints] at hpr
  split at hpr
  · simp at hpr
  · simp only [List.mem_map] at hpr
    obtain ⟨i, -, rfl⟩ := hpr
    rfl

/-! ## Claim theorems -/

/-- Claim C1, counterexample: with a Black-Scholes reference Greek of `0`
(absolute value at most `1e-10`) and a comparison value of `5`, the
percentage difference IS silently reported as `0`, contradicting the
claim that near-zero denominators are surfaced as a distinct diagnostic. -/
theorem greeks_pct_diff_zero_counterexample :
    |(0 : ℚ)| ≤ 1 / 10 ^ 10 ∧ pctDiff 0 5 = 0 := by
  constructor
  · norm_num
  · rw [pctDiff]
    norm_num

/-- Claim C1, amended: whenever the Black-Scholes reference value has
absolute value at most `1e-10`, the displayed percentage difference is
coerced to `0` by the explicit zero-reference guard (no diagnostic is
raised), and for every convergence series with fewer than two points the
fitted-line point list is empty (no fit is drawn, and no error is
signaled). -/
theorem greeks_pct_diff_zero_guard (bsValue v slope : ℚ)
    (points : List ConvergenceDataPoint)
    (hbs : |bsValue| ≤ 1 / 10 ^ 10) (hlen : points.length < 2) :
    pctDiff bsValue v = 0 ∧ fittedPoints slope points = [] := by
  constructor
  · rw [pctDiff, if_neg (not_lt.mpr hbs)]
  · rw [fittedPoints, if_pos hlen]

/-- Witness for `greeks_pct_diff_zero_guard` at `bsValue = 0`, `v = 5`,
`slope = 1`, `points = []`. -/
theorem greeks_pct_diff_zero_guard_witness :
    (|(0 : ℚ)| ≤ 1 / 10 ^ 10 ∧ ([] : List ConvergenceDataPoint).length < 2) ∧
      (pctDiff 0 5 = 0 ∧ fittedPoints 1 [] = []) :=
  ⟨⟨by norm_num, by decide⟩,
    greeks_pct_diff_zero_guard 0 5 1 [] (by norm_num) (by decide)⟩

/-- Claim C2, counterexample: the input `S0 = K = 100`, `sigma = 1/5`,
`T = 1` satisfies all four positivity constraints, yet with the negative
rate `r = -1/100` the form rejects it (the `r` input violates its
`min="0"` attribute), contradicting "`r` unrestricted in sign". -/
theorem option_form_negative_r_counterexample :
    (0 : ℚ) < 100 ∧ (0 : ℚ) < 1 / 5 ∧ (0 : ℚ) < 1 ∧ (-1 / 100 : ℚ) < 0 ∧
      submitForm ⟨100, 100, -1 / 100, 1 / 5, 1, OptionType.call, 100, 1100⟩ = none ∧
      invalidFields ⟨100, 100, -1 / 100, 1 / 5, 1, OptionType.call, 100, 1100⟩
        = [FormField.r] := by
  have hinv : invalidFields ⟨100, 100, -1 / 100, 1 / 5, 1, OptionType.call, 100, 1100⟩
      = [FormField.r] := by
    rw [invalidFields]
    norm_num [stepAligned]
  refine ⟨by norm_num, by norm_num, by norm_num, by norm_num, ?_, hinv⟩
  rw [submitForm, hinv]
  simp

/-- Claim C2, amended: the domain the parameter form accepts is exactly
`S0, K, sigma, T` each `≥ 0.01` and on the `0.01` step grid, and
`0 ≤ r ≤ 1` on the `0.001` step grid (together with the
steps/simulation-count bounds and the `1000` step grid of
`mc_simulations`): positive values below `0.01`, off-grid values, and
negative `r` are all rejected, and each violated constraint is reported
against its own field. -/
theorem option_form_domain (f : OptionFormData) :
    ((submitForm f).isSome = true ↔
      ((1 / 100 ≤ f.S0 ∧ stepAligned (1 / 100) (1 / 100) f.S0) ∧
        (1 / 100 ≤ f.K ∧ stepAligned (1 / 100) (1 / 100) f.K) ∧
        (0 ≤ f.r ∧ f.r ≤ 1 ∧ stepAligned 0 (1 / 1000) f.r) ∧
        (1 / 100 ≤ f.sigma ∧ stepAligned (1 / 100) (1 / 100) f.sigma) ∧
        (1 / 100 ≤ f.T ∧ stepAligned (1 / 100) (1 / 100) f.T) ∧
        (1 ≤ f.binomial_steps ∧ f.binomial_steps ≤ 10000) ∧
        (100 ≤ f.mc_simulations ∧ f.mc_simulations ≤ 10000000 ∧
          stepAligned 100 1000 (f.mc_simulations : ℚ)))) ∧
    (FormField.S0 ∈ invalidFields f ↔
      (f.S0 < 1 / 100 ∨ ¬ stepAligned (1 / 100) (1 / 100) f.S0)) ∧
    (FormField.K ∈ invalidFields f ↔
      (f.K < 1 / 100 ∨ ¬ stepAligned (1 / 100) (1 / 100) f.K)) ∧
    (FormField.r ∈ invalidFields f ↔
      (f.r < 0 ∨ 1 < f.r ∨ ¬ stepAligned 0 (1 / 1000) f.r)) ∧
    (FormField.sigma ∈ invalidFields f ↔
      (f.sigma < 1 / 100 ∨ ¬ stepAligned (1 / 100) (1 / 100) f.sigma)) ∧
    (FormField.T ∈ invalidFields f ↔
      (f.T < 1 / 100 ∨ ¬ stepAligned (1 / 100) (1 / 100) f.T)) := by
  refine ⟨?_, ?_, ?_, ?_, ?_, ?_⟩
  · rw [submitForm_isSome_iff]
    tauto
  all_goals
    rw [invalidFields]
    simp only [List.mem_append, mem_condList]
    simp

/-- Claim C3, counterexample: with `transaction_cost = 0` (non-positive)
the hedging client issues the simulation request instead of rejecting it
— the cost input's own attribute is `min="0"`, and the spec's example
scenario (`transaction_cost = 0`, `contracts = 1`) presumes such a run
completes. -/
theorem hedging_zero_cost_counterexample :
    (hedgingRequest ⟨100, 100, 1 / 20, 1 / 5, 1, OptionType.call, 100, 100000⟩
        ⟨"daily", 0, 1⟩).transaction_cost ≤ 0 ∧
      handleSimulate ⟨100, 100, 1 / 20, 1 / 5, 1, OptionType.call, 100, 100000⟩
          ⟨"daily", 0, 1⟩
        = some (hedgingRequest ⟨100, 100, 1 / 20, 1 / 5, 1, OptionType.call, 100, 100000⟩
            ⟨"daily", 0, 1⟩) :=
  ⟨le_refl 0, rfl⟩

/-- Claim C3, amended: the client performs no validation before a hedging
simulation request — for every component state `handleSimulate` issues
exactly one request copying `transaction_cost` and `option_contracts`
verbatim (`transaction_cost = 0`, the input's minimum, is accepted,
matching the spec's zero-cost example scenario); the rebalancing
frequency, coming from the `<select>`, can only be one of the six
recognized tokens; unparseable or zero contracts input falls back to 1. -/
theorem hedging_request_unvalidated (base : PricingRequest) (st : HedgingSimState)
    (hfreq : st.rebalanceFreq ∈ rebalanceFreqOptions) :
    handleSimulate base st = some (hedgingRequest base st) ∧
      (hedgingRequest base st).transaction_cost = st.transactionCost ∧
      (hedgingRequest base st).option_contracts = st.optionContracts ∧
      (hedgingRequest base st).rebalance_freq ∈ rebalanceFreqOptions ∧
      contractsFromInput none = 1 ∧ contractsFromInput (some 0) = 1 :=
  ⟨rfl, rfl, rfl, hfreq, rfl, rfl⟩

/-- Witness for `hedging_request_unvalidated` at the default state
(`"daily"`, cost `1/1000`, one contract). -/
theorem hedging_request_unvalidated_witness :
    ("daily" ∈ rebalanceFreqOptions) ∧
      (handleSimulate ⟨100, 100, 1 / 20, 1 / 5, 1, OptionType.call, 100, 100000⟩
            ⟨"daily", 1 / 1000, 1⟩
          = some (hedgingRequest ⟨100, 100, 1 / 20, 1 / 5, 1, OptionType.call, 100, 100000⟩
              ⟨"daily", 1 / 1000, 1⟩) ∧
        (hedgingRequest ⟨100, 100, 1 / 20, 1 / 5, 1, OptionType.call, 100, 100000⟩
              ⟨"daily", 1 / 1000, 1⟩).transaction_cost = 1 / 1000 ∧
        (hedgingRequest ⟨100, 100, 1 / 20, 1 / 5, 1, OptionType.call, 100, 100000⟩
              ⟨"daily", 1 / 1000, 1⟩).option_contracts = 1 ∧
        (hedgingRequest ⟨100, 100, 1 / 20, 1 / 5, 1, OptionType.call, 100, 100000⟩
              ⟨"daily", 1 / 1000, 1⟩).rebalance_freq ∈ rebalanceFreqOptions ∧
        contractsFromInput none = 1 ∧ contractsFromInput (some 0) = 1) :=
  ⟨by simp [rebalanceFreqOptions],
    hedging_request_unvalidated ⟨100, 100, 1 / 20, 1 / 5, 1, OptionType.call, 100, 100000⟩
      ⟨"daily", 1 / 1000, 1⟩ (by simp [rebalanceFreqOptions])⟩

/-- Claim C4: `calculatePricing` consumes the outcome of its single
request attempt (the function takes exactly one attempt outcome — there
is no retry path): an axios failure is rethrown synchronously as one
`Error` carrying the server detail when present and the fixed fallback
`"Failed to calculate pricing"` otherwise; in `handleCalculate`, every
failure clears the previously displayed results (`results := null`) and
no partial result is kept, while a success stores the full response. -/
theorem pricing_error_propagation (st : PageState) (request : PricingRequest) :
    (∀ s, calculatePricing (.axiosFailure (some s)) = .error ⟨true, s⟩) ∧
    (calculatePricing (.axiosFailure none)
        = .error ⟨true, "Failed to calculate pricing"⟩) ∧
    (∀ detail,
      (handleCalculate st request (.axiosFailure detail)).results = none ∧
      (handleCalculate st request (.axiosFailure detail)).error
          = some (detail.getD "Failed to calculate pricing")) ∧
    (∀ e, (handleCalculate st request (.failure e)).results = none ∧
      (handleCalculate st request (.failure e)).error
          = some (if e.isError then e.message else "An error occurred")) ∧
    (∀ resp, calculatePricing (.success resp) = .ok resp ∧
      (handleCalculate st request (.success resp)).results = some resp ∧
      (handleCalculate st request (.success resp)).error = none) :=
  ⟨fun _ => rfl, rfl, fun _ => ⟨rfl, rfl⟩, fun _ => ⟨rfl, rfl⟩, fun _ => ⟨rfl, rfl, rfl⟩⟩

/-- Claim C5: with every other input satisfying its `min`/`max`/`step`
constraints, the form submits exactly when `1 ≤ binomial_steps ≤ 10000`;
out-of-range steps are rejected before any request (hence before any
pricing execution) is made, and every integer in the range is accepted —
the steps input's own `min="1" step="1"` grid admits every integer. -/
theorem binomial_steps_interface_bounds (f : OptionFormData)
    (hS0 : 1 / 100 ≤ f.S0) (hS0a : stepAligned (1 / 100) (1 / 100) f.S0)
    (hK : 1 / 100 ≤ f.K) (hKa : stepAligned (1 / 100) (1 / 100) f.K)
    (hr0 : 0 ≤ f.r) (hr1 : f.r ≤ 1) (hra : stepAligned 0 (1 / 1000) f.r)
    (hsigma : 1 / 100 ≤ f.sigma) (hsigmaa : stepAligned (1 / 100) (1 / 100) f.sigma)
    (hT : 1 / 100 ≤ f.T) (hTa : stepAligned (1 / 100) (1 / 100) f.T)
    (hmc0 : 100 ≤ f.mc_simulations) (hmc1 : f.mc_simulations ≤ 10000000)
    (hmca : stepAligned 100 1000 (f.mc_simulations : ℚ)) :
    (submitForm f).isSome = true ↔
      (1 ≤ f.binomial_steps ∧ f.binomial_steps ≤ 10000) := by
  rw [submitForm_isSome_iff]
  tauto

/-- Witness for `binomial_steps_interface_bounds` at the form's default
values (`steps = 100`). -/
theorem binomial_steps_interface_bounds_witness :
    ((1 : ℚ) / 100 ≤ 100 ∧ stepAligned (1 / 100) (1 / 100) (100 : ℚ) ∧
        (0 : ℚ) ≤ 1 / 20 ∧ (1 : ℚ) / 20 ≤ 1 ∧ stepAligned 0 (1 / 1000) (1 / 20 : ℚ) ∧
        (1 : ℚ) / 100 ≤ 1 / 5 ∧ stepAligned (1 / 100) (1 / 100) (1 / 5 : ℚ) ∧
        (1 : ℚ) / 100 ≤ 1 ∧ stepAligned (1 / 100) (1 / 100) (1 : ℚ) ∧
        (100 : ℤ) ≤ 1100 ∧ (1100 : ℤ) ≤ 10000000 ∧
        stepAligned 100 1000 ((1100 : ℤ) : ℚ)) ∧
      ((submitForm ⟨100, 100, 1 / 20, 1 / 5, 1, OptionType.call, 100, 1100⟩).isSome = true ↔
        (1 ≤ (100 : ℤ) ∧ (100 : ℤ) ≤ 10000)) :=
  ⟨⟨by norm_num, by norm_num [stepAligned], by norm_num, by norm_num,
      by norm_num [stepAligned], by norm_num, by norm_num [stepAligned],
      by norm_num, by norm_num [stepAligned], by norm_num, by norm_num,
      by norm_num [stepAligned]⟩,
    binomial_steps_interface_bounds
      ⟨100, 100, 1 / 20, 1 / 5, 1, OptionType.call, 100, 1100⟩
      (by norm_num) (by norm_num [stepAligned]) (by norm_num) (by norm_num [stepAligned])
      (by norm_num) (by norm_num) (by norm_num [stepAligned])
      (by norm_num) (by norm_num [stepAligned]) (by norm_num) (by norm_num [stepAligned])
      (by norm_num) (by norm_num) (by norm_num [stepAligned])⟩

/-- Claim C9: every Greeks-sensitivity request is clamped to the
configured per-parameter bounds (`min_value` at least the configured
minimum, `max_value` at most the configured maximum) and carries
`steps = 30`; the configured bounds are 0.05–1.0 for `sigma`, 0.1–5.0 for
`T`, 0–0.5 for `r`, and 10–500 for `S0` and `K`. -/
theorem greeks_sensitivity_clamped (p : ParameterName) (range : ℚ × ℚ)
    (base : PricingRequest) :
    (paramConfig p).min ≤ (greeksSensitivityRequest p range base).min_value ∧
      (greeksSensitivityRequest p range base).max_value ≤ (paramConfig p).max ∧
      (greeksSensitivityRequest p range base).steps = 30 ∧
      (paramConfig ParameterName.sigma).min = 1 / 20 ∧
      (paramConfig ParameterName.sigma).max = 1 ∧
      (paramConfig ParameterName.T).min = 1 / 10 ∧
      (paramConfig ParameterName.T).max = 5 ∧
      (paramConfig ParameterName.r).min = 0 ∧
      (paramConfig ParameterName.r).max = 1 / 2 ∧
      (paramConfig ParameterName.S0).min = 10 ∧
      (paramConfig ParameterName.S0).max = 500 ∧
      (paramConfig ParameterName.K).min = 10 ∧
      (paramConfig ParameterName.K).max = 500 :=
  ⟨le_max_left _ _, min_le_left _ _, rfl, rfl, rfl, rfl, rfl, rfl, rfl, rfl, rfl, rfl, rfl⟩

/-- Claim C6: for every convergence result with at least two data points
per model, the rendered fitted line passes through the centroid of the
log-log data — the intercept is `mean(log10_error) - slope * mean(log10_N)`,
the line's value at `mean(log10_N)` is `mean(log10_error)`, and every
rendered sample point lies on that line. -/
theorem convergence_fit_through_centroid (res : ConvergenceResponse)
    (hb : 2 ≤ res.binomial.length) (hm : 2 ≤ res.monte_carlo.length) :
    (fitIntercept res.binomial_slope res.binomial
        = listMean (res.binomial.map (·.log10_error))
            - res.binomial_slope * listMean (res.binomial.map (·.log10_N)) ∧
      fitLineAt res.binomial_slope res.binomial
          (listMean (res.binomial.map (·.log10_N)))
        = listMean (res.binomial.map (·.log10_error)) ∧
      ∀ pr ∈ binomialFitted res,
        pr.2 = fitLineAt res.binomial_slope res.binomial pr.1) ∧
    (fitIntercept res.monte_carlo_slope res.monte_carlo
        = listMean (res.monte_carlo.map (·.log10_error))
            - res.monte_carlo_slope * listMean (res.monte_carlo.map (·.log10_N)) ∧
      fitLineAt res.monte_carlo_slope res.monte_carlo
          (listMean (res.monte_carlo.map (·.log10_N)))
        = listMean (res.monte_carlo.map (·.log10_error)) ∧
      ∀ pr ∈ mcFitted res,
        pr.2 = fitLineAt res.monte_carlo_slope res.monte_carlo pr.1) := by
  refine ⟨⟨rfl, ?_, fittedPoints_on_line _ _⟩, ⟨rfl, ?_, fittedPoints_on_line _ _⟩⟩ <;>
    · rw [fitLineAt, fitIntercept]
      ring

/-- Witness for `convergence_fit_through_centroid` on a concrete
two-point response. -/
theorem convergence_fit_through_centroid_witness :
    (2 ≤ ([⟨10, 1, 1 / 10, -1, 10⟩, ⟨100, 2, 1 / 100, -2, 10⟩]
        : List ConvergenceDataPoint).length ∧
      2 ≤ ([⟨10, 1, 1 / 10, -1, 10⟩, ⟨100, 2, 1 / 100, -2, 10⟩]
        : List ConvergenceDataPoint).length) ∧
      ((fitIntercept (-1) [⟨10, 1, 1 / 10, -1, 10⟩, ⟨100, 2, 1 / 100, -2, 10⟩]
          = listMean (([⟨10, 1, 1 / 10, -1, 10⟩, ⟨100, 2, 1 / 100, -2, 10⟩]
              : List ConvergenceDataPoint).map (·.log10_error))
              - (-1) * listMean (([⟨10, 1, 1 / 10, -1, 10⟩, ⟨100, 2, 1 / 100, -2, 10⟩]
              : List ConvergenceDataPoint).map (·.log10_N)) ∧
        fitLineAt (-1) [⟨10, 1, 1 / 10, -1, 10⟩, ⟨100, 2, 1 / 100, -2, 10⟩]
            (listMean (([⟨10, 1, 1 / 10, -1, 10⟩, ⟨100, 2, 1 / 100, -2, 10⟩]
              : List ConvergenceDataPoint).map (·.log10_N)))
          = listMean (([⟨10, 1, 1 / 10, -1, 10⟩, ⟨100, 2, 1 / 100, -2, 10⟩]
              : List ConvergenceDataPoint).map (·.log10_error)) ∧
        ∀ pr ∈ binomialFitted ⟨[⟨10, 1, 1 / 10, -1, 10⟩, ⟨100, 2, 1 / 100, -2, 10⟩],
            [⟨10, 1, 1 / 10, -1, 10⟩, ⟨100, 2, 1 / 100, -2, 10⟩], -1, -1 / 2, 10⟩,
          pr.2 = fitLineAt (-1) [⟨10, 1, 1 / 10, -1, 10⟩, ⟨100, 2, 1 / 100, -2, 10⟩] pr.1) ∧
      (fitIntercept (-1 / 2) [⟨10, 1, 1 / 10, -1, 10⟩, ⟨100, 2, 1 / 100, -2, 10⟩]
          = listMean (([⟨10, 1, 1 / 10, -1, 10⟩, ⟨100, 2, 1 / 100, -2, 10⟩]
              : List ConvergenceDataPoint).map (·.log10_error))
              - (-1 / 2) * listMean (([⟨10, 1, 1 / 10, -1, 10⟩, ⟨100, 2, 1 / 100, -2, 10⟩]
              : List ConvergenceDataPoint).map (·.log10_N)) ∧
        fitLineAt (-1 / 2) [⟨10, 1, 1 / 10, -1, 10⟩, ⟨100, 2, 1 / 100, -2, 10⟩]
            (listMean (([⟨10, 1, 1 / 10, -1, 10⟩, ⟨100, 2, 1 / 100, -2, 10⟩]
              : List ConvergenceDataPoint).map (·.log10_N)))
          = listMean (([⟨10, 1, 1 / 10, -1, 10⟩, ⟨100, 2, 1 / 100, -2, 10⟩]
              : List ConvergenceDataPoint).map (·.log10_error)) ∧
        ∀ pr ∈ mcFitted ⟨[⟨10, 1, 1 / 10, -1, 10⟩, ⟨100, 2, 1 / 100, -2, 10⟩],
            [⟨10, 1, 1 / 10, -1, 10⟩, ⟨100, 2, 1 / 100, -2, 10⟩], -1, -1 / 2, 10⟩,
          pr.2 = fitLineAt (-1 / 2) [⟨10, 1, 1 / 10, -1, 10⟩, ⟨100, 2, 1 / 100, -2, 10⟩] pr.1)) :=
  ⟨⟨by norm_num, by norm_num⟩,
    convergence_fit_through_centroid
      ⟨[⟨10, 1, 1 / 10, -1, 10⟩, ⟨100, 2, 1 / 100, -2, 10⟩],
        [⟨10, 1, 1 / 10, -1, 10⟩, ⟨100, 2, 1 / 100, -2, 10⟩], -1, -1 / 2, 10⟩
      (by norm_num) (by norm_num)⟩

/-- The `i`-th swept value is `lo + i * ((hi - lo) / 10)`. -/
theorem sweepValues_getElem (lo hi : ℚ) (i : ℕ) (hik : i < 11) :
    (sweepValues lo hi)[i]? = some (lo + (i : ℚ) * ((hi - lo) / 10)) := by
  simp only [sweepValues]
  rw [List.getElem?_map, List.getElem?_range hik]
  rfl

/-- The swept values are non-decreasing when `lo ≤ hi`. -/
theorem sweepValues_sorted (lo hi : ℚ) (h : lo ≤ hi) :
    (sweepValues lo hi).Sorted (· ≤ ·) := by
  simp only [sweepValues]
  refine List.pairwise_map.mpr ?_
  refine (List.pairwise_lt_range 11).imp ?_
  intro a b hab
  have hstep : (0 : ℚ) ≤ (hi - lo) / 10 := by linarith
  have hcast : (a : ℚ) ≤ (b : ℚ) := by exact_mod_cast hab.le
  nlinarith

/-- `results` is, in order, the image of the successful swept values. -/
theorem generateSensitivityData_sublist (fetch : ℚ → Option PricingResponse)
    (l : List ℚ) :
    ((l.filterMap (fun v => (fetch v).map (fun resp =>
        (⟨jsToFixed2 v, resp.black_scholes, resp.binomial, resp.monte_carlo⟩
          : SensitivityPoint)))).map SensitivityPoint.value).Sublist
      (l.map jsToFixed2) := by
  induction l with
  | nil => simp
  | cons v t ih =>
    rw [List.filterMap_cons, List.map_cons]
    cases hf : fetch v with
    | none => exact ih.cons _
    | some resp => exact ih.cons₂ _

/-- When every request succeeds, `results` is exactly the swept values in
generation order (each rounded for display). -/
theorem generateSensitivityData_all_some (fetch : ℚ → Option PricingResponse)
    (l : List ℚ) (hall : ∀ v, (fetch v).isSome = true) :
    ((l.filterMap (fun v => (fetch v).map (fun resp =>
        (⟨jsToFixed2 v, resp.black_scholes, resp.binomial, resp.monte_carlo⟩
          : SensitivityPoint)))).map SensitivityPoint.value)
      = l.map jsToFixed2 := by
  induction l with
  | nil => simp
  | cons v t ih =>
    rw [List.filterMap_cons, List.map_cons]
    cases hf : fetch v with
    | none => exact absurd (hall v) (by rw [hf]; simp)
    | some resp =>
      show jsToFixed2 v :: _ = _
      rw [ih]

/-- Claim C7: the sensitivity sweep over `[lo, hi]` evaluates exactly the
11 evenly spaced values `lo + i * (hi - lo) / 10`, `i = 0..10` (first
`lo`, last `hi`), in non-decreasing order, and the returned sequence of
points preserves that generation order (an in-order sublist when some
calls fail, the full in-order list when all succeed). -/
theorem parameter_sweep_order (lo hi : ℚ) (fetch : ℚ → Option PricingResponse)
    (h : lo ≤ hi) :
    (sweepValues lo hi).length = 11 ∧
      (∀ i : ℕ, i < 11 →
        (sweepValues lo hi)[i]? = some (lo + (i : ℚ) * ((hi - lo) / 10))) ∧
      (sweepValues lo hi)[0]? = some lo ∧
      (sweepValues lo hi)[10]? = some hi ∧
      (sweepValues lo hi).Sorted (· ≤ ·) ∧
      ((generateSensitivityData fetch lo hi).map SensitivityPoint.value).Sublist
        ((sweepValues lo hi).map jsToFixed2) ∧
      ((∀ v, (fetch v).isSome = true) →
        (generateSensitivityData fetch lo hi).map SensitivityPoint.value
          = (sweepValues lo hi).map jsToFixed2) := by
  refine ⟨by simp only [sweepValues]; rw [List.length_map, List.length_range],
    sweepValues_getElem lo hi, ?_, ?_,
    sweepValues_sorted lo hi h, generateSensitivityData_sublist fetch _,
    generateSensitivityData_all_some fetch _⟩
  · rw [sweepValues_getElem lo hi 0 (by norm_num)]
    norm_num
  · rw [sweepValues_getElem lo hi 10 (by norm_num)]
    congr 1
    ring

/-- Witness for `parameter_sweep_order` on the default range `[50, 150]`
with every call failing (empty results, trivially in order). -/
theorem parameter_sweep_order_witness :
    ((50 : ℚ) ≤ 150) ∧
      ((sweepValues 50 150).length = 11 ∧
        (∀ i : ℕ, i < 11 →
          (sweepValues 50 150)[i]? = some (50 + (i : ℚ) * ((150 - 50) / 10))) ∧
        (sweepValues 50 150)[0]? = some 50 ∧
        (sweepValues 50 150)[10]? = some 150 ∧
        (sweepValues 50 150).Sorted (· ≤ ·) ∧
        ((generateSensitivityData (fun _ => none) 50 150).map
            SensitivityPoint.value).Sublist
          ((sweepValues 50 150).map jsToFixed2) ∧
        ((∀ v : ℚ, ((fun _ => (none : Option PricingResponse)) v).isSome = true) →
          (generateSensitivityData (fun _ => none) 50 150).map SensitivityPoint.value
            = (sweepValues 50 150).map jsToFixed2)) :=
  ⟨by norm_num, parameter_sweep_order 50 150 (fun _ => none) (by norm_num)⟩

/-- Folding `min` over a constant list returns the constant. -/
theorem foldl_min_const (v : ℚ) : ∀ t : List ℚ, (∀ q ∈ t, q = v) → t.foldl min v = v
  | [], _ => rfl
  | a :: t, hall => by
    have ha : a = v := hall a (by simp)
    rw [List.foldl_cons, ha, min_self]
    exact foldl_min_const v t (fun q hq => hall q (by simp [hq]))

/-- Folding `max` over a constant list returns the constant. -/
theorem foldl_max_const (v : ℚ) : ∀ t : List ℚ, (∀ q ∈ t, q = v) → t.foldl max v = v
  | [], _ => rfl
  | a :: t, hall => by
    have ha : a = v := hall a (by simp)
    rw [List.foldl_cons, ha, max_self]
    exact foldl_max_const v t (fun q hq => hall q (by simp [hq]))

/-- `Math.min` over a non-empty constant list is the constant. -/
theorem jsMinList_const (v : ℚ) (l : List ℚ) (hne : l ≠ []) (hall : ∀ q ∈ l, q = v) :
    jsMinList l = v := by
  cases l with
  | nil => exact absurd rfl hne
  | cons h t =>
    have hh : h = v := hall h (by simp)
    rw [jsMinList, hh]
    exact foldl_min_const v t (fun q hq => hall q (by simp [hq]))

/-- `Math.max` over a non-empty constant list is the constant. -/
theorem jsMaxList_const (v : ℚ) (l : List ℚ) (hne : l ≠ []) (hall : ∀ q ∈ l, q = v) :
    jsMaxList l = v := by
  cases l with
  | nil => exact absurd rfl hne
  | cons h t =>
    have hh : h = v := hall h (by simp)
    rw [jsMaxList, hh]
    exact foldl_max_const v t (fun q hq => hall q (by simp [hq]))

/-- Claim C10: the heatmap colour normalization is not total — on every
non-empty dataset whose Greek values are all equal (`max = min`) the
normalization is `0/0 = NaN` and `getColor` yields the literal string
`"hsl(NaN, 70%, 50%)"` for each cell, while whenever `max > min` the hue
is a finite number and the colour string is well-formed. -/
theorem heatmap_color_totality (data : List HeatmapPoint) (v : ℚ) :
    (data ≠ [] → (∀ p ∈ data, p.value = v) →
      ∀ p ∈ data, getColor data p.value = "hsl(NaN, 70%, 50%)") ∧
    (heatMinValue data < heatMaxValue data →
      ∀ w : ℚ, ∃ q : ℚ, getColor data w = "hsl(" ++ toString q ++ ", 70%, 50%)") := by
  constructor
  · intro hne hall p hp
    have hmapne : data.map (·.value) ≠ [] := by
      simpa using hne
    have hmapall : ∀ q ∈ data.map (·.value), q = v := by
      intro q hq
      obtain ⟨p', hp', rfl⟩ := List.mem_map.mp hq
      exact hall p' hp'
    have hmin : heatMinValue data = v := jsMinList_const v _ hmapne hmapall
    have hmax : heatMaxValue data = v := jsMaxList_const v _ hmapne hmapall
    have hv : p.value = v := hall p hp
    simp only [getColor, hmin, hmax, hv, sub_self]
    rw [jsDiv]
    norm_num [jsOneSub, jsMul240, jsNumToString]
    rfl
  · intro hlt w
    have hne0 : heatMaxValue data - heatMinValue data ≠ 0 :=
      sub_ne_zero.mpr (ne_of_gt hlt)
    refine ⟨(1 - (w - heatMinValue data) / (heatMaxValue data - heatMinValue data)) * 240, ?_⟩
    simp only [getColor]
    rw [jsDiv, if_neg hne0]
    rfl

/-- Witness for `heatmap_color_totality`: a constant dataset yields the
`NaN` colour string; a two-valued dataset yields a finite hue. -/
theorem heatmap_color_totality_witness :
    getColor [⟨1, 1, 3⟩, ⟨2, 2, 3⟩] (3 : ℚ) = "hsl(NaN, 70%, 50%)" ∧
      ∃ q : ℚ, getColor [⟨1, 1, 0⟩, ⟨2, 2, 1⟩] (0 : ℚ)
        = "hsl(" ++ toString q ++ ", 70%, 50%)" := by
  constructor
  · exact (heatmap_color_totality [⟨1, 1, 3⟩, ⟨2, 2, 3⟩] 3).1 (by simp)
      (by intro p hp; simp at hp; rcases hp with rfl | rfl <;> rfl) ⟨1, 1, 3⟩ (by simp)
  · refine (heatmap_color_totality [⟨1, 1, 0⟩, ⟨2, 2, 1⟩] 0).2 ?_ 0
    norm_num [heatMinValue, heatMaxValue, jsMinList, jsMaxList]

/-- The standard normal CDF satisfies `N(x) + N(-x) = 1` (reflection of
the Gaussian integral plus the total mass `√(2π)`). -/
theorem normalCDF_add_neg (x : ℝ) : normalCDF x + normalCDF (-x) = 1 := by
  have hfun : (fun t : ℝ => Real.exp (-t ^ 2 / 2))
      = fun t : ℝ => Real.exp (-(1 / 2 : ℝ) * t ^ 2) := by
    funext t
    ring_nf
  have hint : MeasureTheory.Integrable (fun t : ℝ => Real.exp (-t ^ 2 / 2)) := by
    rw [hfun]
    exact integrable_exp_neg_mul_sq (by norm_num)
  have hrefl : (∫ t in Set.Iic (-x), Real.exp (-t ^ 2 / 2))
      = ∫ t in Set.Ioi x, Real.exp (-t ^ 2 / 2) := by
    have h := integral_comp_neg_Iic (-x) (fun t : ℝ => Real.exp (-t ^ 2 / 2))
    simp only [neg_neg, neg_sq] at h
    exact h
  have hsplit : (∫ t in Set.Iic x, Real.exp (-t ^ 2 / 2))
        + (∫ t in Set.Ioi x, Real.exp (-t ^ 2 / 2))
      = ∫ t : ℝ, Real.exp (-t ^ 2 / 2) :=
    intervalIntegral.integral_Iic_add_Ioi hint.integrableOn hint.integrableOn
  have htotal : (∫ t : ℝ, Real.exp (-t ^ 2 / 2)) = Real.sqrt (2 * Real.pi) := by
    rw [hfun, integral_gaussian]
    congr 1
    rw [div_div_eq_mul_div]
    ring
  have hpos : Real.sqrt (2 * Real.pi) ≠ 0 := by
    positivity
  rw [normalCDF, normalCDF, div_add_div_same, hrefl, hsplit, htotal, div_self hpos]

/-- Claim C8: put-call parity of the analytic pricer — for all valid
parameters (`S0 > 0`, `K > 0`, `sigma > 0`, `T > 0`), the analytic call
price minus the analytic put price equals `S0 - K·e^(-rT)` (exactly, hence
within any floating tolerance). -/
theorem analytic_put_call_parity (p : OptionParameters)
    (hS0 : 0 < p.S0) (hK : 0 < p.K) (hsigma : 0 < p.sigma) (hT : 0 < p.T) :
    bsCall p - bsPut p = p.S0 - p.K * Real.exp (-p.r * p.T) := by
  have h1 := normalCDF_add_neg (bsD1 p)
  have h2 := normalCDF_add_neg (bsD2 p)
  rw [bsCall, bsPut]
  linear_combination p.S0 * h1 - p.K * Real.exp (-p.r * p.T) * h2

/-- Witness for `analytic_put_call_parity` at
`S0 = K = sigma = T = 1`, `r = 0`. -/
theorem analytic_put_call_parity_witness :
    ((0 : ℝ) < 1) ∧
      bsCall ⟨1, 1, 0, 1, 1⟩ - bsPut ⟨1, 1, 0, 1, 1⟩
        = 1 - 1 * Real.exp (-(0 : ℝ) * 1) :=
  ⟨by norm_num,
    analytic_put_call_parity ⟨1, 1, 0, 1, 1⟩
      (by norm_num) (by norm_num) (by norm_num) (by norm_num)⟩
